import Mathlib

/-!
Shallow embedding of the LocalConnect availability and booking code
(`src/lib/availability.js`, `src/lib/firestore.js`,
`src/app/providers/[id]/page.js`).

Conventions of the embedding:
* Times of day ("HH:MM" strings in the source) are minute-of-day integers
  (`Int`).  The source formats minutes into zero-padded "HH:MM" strings and
  parses them back with `parseInt`; this round trip is the identity, and
  string equality of formatted times coincides with equality of the minute
  values, so minutes are a faithful representation.
* Dates ("YYYY-MM-DD" strings in the source) are `DateArg`: an empty/falsy
  string is `DateArg.empty`, a non-empty string that does not parse as a
  date (so `new Date(s).getDay()` is `NaN`) is `DateArg.invalid tag`, and a
  parseable date is `DateArg.valid day` with `day` a day index in a single
  implicit timezone.  `getDay()` is modelled as `day % 7` (a fixed
  relabelling of weekdays; nothing below depends on which index is Sunday).
* Timestamps (`new Date()` / `Date.now()`) are minutes since the epoch
  (`Int`); the instant of slot `t` on valid date `day` is `day * 1440 + t`,
  and the date part of a timestamp `now` is `now.fdiv 1440`.
-/

/-- Booking status strings used by the source
(`pending`, `confirmed`, `rejected`, `completed`). -/
inductive BStatus
  | pending
  | confirmed
  | rejected
  | completed
deriving DecidableEq, Repr

/-- A date argument as the source sees it: falsy, unparseable, or a valid
calendar date (day index). `tag` distinguishes distinct unparseable strings
so that string equality remains faithful. -/
inductive DateArg
  | empty
  | invalid (tag : Nat)
  | valid (day : Int)
deriving DecidableEq, Repr

/-- A booking record, restricted to the fields the availability code reads:
`providerId`, `scheduledDate`, `scheduledTime`, `status`. -/
structure Booking where
  providerId : String
  scheduledDate : DateArg
  scheduledTime : Int
  status : BStatus
deriving DecidableEq, Repr

/-- Per-weekday availability rule
(`{ available, startTime, endTime }` in the source). -/
structure DayRule where
  available : Bool
  startTime : Int
  endTime : Int
deriving DecidableEq, Repr

/-- A provider, restricted to the `availability` field the availability
code reads. `none` models a provider object with no `availability`
property (`!provider?.availability`); indexing a weekday that has no rule
(`provider.availability[dayOfWeek]` undefined) is the inner `none`. -/
structure Provider where
  availability : Option (Fin 7 → Option DayRule)

/-- `new Date(date).getDay()` for a valid date, as a weekday index. -/
def dayOfWeek (day : Int) : Fin 7 :=
  ⟨(day % 7).toNat, by omega⟩

/-- `provider.availability[new Date(date).getDay()]`, `none` when the
provider has no availability data, the date is falsy or unparseable
(indexing by `NaN`), or the weekday has no rule. -/
def dayRuleForDate (p : Provider) (date : DateArg) : Option DayRule :=
  match p.availability, date with
  | some avail, DateArg.valid day => avail (dayOfWeek day)
  | _, _ => none

/-- `['pending', 'confirmed'].includes(booking.status)`. -/
def isActiveStatus (s : BStatus) : Bool :=
  s = BStatus.pending || s = BStatus.confirmed

/-- The conflicting-booking predicate of `isProviderAvailable`
(src/lib/availability.js:43-47): same date, same time, active status. -/
def conflictsAt (date : DateArg) (time : Int) (b : Booking) : Bool :=
  b.scheduledDate = date && b.scheduledTime = time && isActiveStatus b.status

/-- `isProviderAvailable(provider, date, time, existingBookings)`
(src/lib/availability.js:11-50): false when availability data or the date
is missing, the day is not worked, or the time is outside
`[startTime, endTime)`; otherwise true iff no pending/confirmed booking
exists at the same date and time. -/
def isProviderAvailable (p : Provider) (date : DateArg) (time : Int)
    (bookings : List Booking) : Bool :=
  match p.availability, date with
  | some avail, DateArg.valid day =>
    match avail (dayOfWeek day) with
    | some da =>
      if !da.available then false
      else if time < da.startTime || da.endTime ≤ time then false
      else !(bookings.any (conflictsAt date time))
    | none => false
  | _, _ => false

/-- The slot-generation loop shared by `generateTimeSlots` and
`getAvailableTimeSlots` (src/lib/availability.js:82-92, 215-219):
`for (time = t; time + duration <= endT; time += duration) emit time`.
The source loop terminates only for `duration > 0`; the embedding is
totalized by a fuel parameter, with the fuel proven sufficient for every
positive duration (`slotStartsAux_fuel_irrel`), and the non-termination of
the source loop for `duration ≤ 0` is treated separately through the
small-step view `slotLoopGuard`/`loopIter`. -/
def slotStartsAux (endT d : Int) : Nat → Int → List Int
  | 0, _ => []
  | fuel + 1, t =>
    if t + d ≤ endT then t :: slotStartsAux endT d fuel (t + d) else []

/-- `generateTimeSlots(startTime, endTime, duration)`
(src/lib/availability.js:210-222), on minute values. -/
def generateTimeSlots (startT endT d : Int) : List Int :=
  slotStartsAux endT d ((endT - startT).toNat + 1) startT

/-- The guard of the slot-generation loop:
`currentTime + slotDuration <= endTime`. -/
def slotLoopGuard (endT d t : Int) : Prop :=
  t + d ≤ endT

instance (endT d t : Int) : Decidable (slotLoopGuard endT d t) := by
  unfold slotLoopGuard; infer_instance

/-- The loop variable after `n` executions of `currentTime += duration`
starting from `start`. -/
def loopIter (d start : Int) (n : Nat) : Int :=
  start + n * d

/-- `getAvailableTimeSlots(provider, date, existingBookings, slotDuration)`
(src/lib/availability.js:61-95): empty list when availability data or the
date is missing or the day is not worked; otherwise every generated slot
start in the working window that passes `isProviderAvailable`. -/
def getAvailableTimeSlots (p : Provider) (date : DateArg)
    (bookings : List Booking) (slotDuration : Int) : List Int :=
  match p.availability, date with
  | some avail, DateArg.valid day =>
    match avail (dayOfWeek day) with
    | some da =>
      if !da.available then []
      else
        (slotStartsAux da.endTime slotDuration
            ((da.endTime - da.startTime).toNat + 1) da.startTime).filter
          (fun t => isProviderAvailable p date t bookings)
    | none => []
  | _, _ => []

/-- `getTotalPossibleSlots(dayAvailability, slotDuration)`
(src/lib/availability.js:181-191): `Math.floor((endTime - startTime) / slotDuration)`. -/
def getTotalPossibleSlots (da : DayRule) (slotDuration : Int) : Int :=
  Int.fdiv (da.endTime - da.startTime) slotDuration

/-- `getBookedSlotsForDate(date, existingBookings)`
(src/lib/availability.js:165-173): times of active bookings on the date,
sorted. -/
def getBookedSlotsForDate (date : DateArg) (bookings : List Booking) : List Int :=
  List.insertionSort (fun a b => a ≤ b)
    ((bookings.filter
        (fun b => b.scheduledDate = date && isActiveStatus b.status)).map
      (fun b => b.scheduledTime))

/-- The `status` strings produced by `getAvailabilityStatus`. -/
inductive StatusTag
  | unavailable
  | closed
  | fullyBooked
  | limited
  | moderate
  | available
deriving DecidableEq, Repr

/-- The fields of the `getAvailabilityStatus` result that carry the
verdict (the source also returns display-only message/count fields). -/
structure AvailStatus where
  available : Bool
  status : StatusTag
deriving DecidableEq, Repr

/-- `getAvailabilityStatus(provider, date, existingBookings)`
(src/lib/availability.js:104-157). Missing availability data or a falsy
date give `unavailable`; an unworked (or unparseable) day gives `closed`;
zero remaining slots give `fully-booked`; otherwise the
percentage `availableSlots.length / totalPossibleSlots * 100` selects
`limited` (< 25), `moderate` (< 50) or `available`. -/
def getAvailabilityStatus (p : Provider) (date : DateArg)
    (bookings : List Booking) : AvailStatus :=
  match p.availability, date with
  | none, _ => ⟨false, StatusTag.unavailable⟩
  | some _, DateArg.empty => ⟨false, StatusTag.unavailable⟩
  | some _, DateArg.invalid _ => ⟨false, StatusTag.closed⟩
  | some avail, DateArg.valid day =>
    match avail (dayOfWeek day) with
    | none => ⟨false, StatusTag.closed⟩
    | some da =>
      if !da.available then ⟨false, StatusTag.closed⟩
      else
        let availableSlots :=
          getAvailableTimeSlots p (DateArg.valid day) bookings 60
        let totalPossibleSlots := getTotalPossibleSlots da 60
        if availableSlots.length = 0 then ⟨false, StatusTag.fullyBooked⟩
        else
          let pct : ℚ :=
            (availableSlots.length : ℚ) / (totalPossibleSlots : ℚ) * 100
          if pct < 25 then ⟨true, StatusTag.limited⟩
          else if pct < 50 then ⟨true, StatusTag.moderate⟩
          else ⟨true, StatusTag.available⟩

/-- The date part of the clock, `new Date().toISOString().split('T')[0]`. -/
def todayOf (now : Int) : DateArg :=
  DateArg.valid (Int.fdiv now 1440)

/-- `isSlotInPast(date, time)` (src/lib/availability.js:282-285):
`new Date(date + 'T' + time) < new Date()`. An unparseable date gives an
invalid datetime, and every comparison with `NaN` is false. -/
def isSlotInPast (date : DateArg) (time : Int) (now : Int) : Bool :=
  match date with
  | DateArg.valid day => decide (day * 1440 + time < now)
  | _ => false

/-- `filterPastSlots(date, timeSlots)` (src/lib/availability.js:293-303):
all slots unchanged unless the date is today, in which case the slots
`isSlotInPast` accepts are dropped. -/
def filterPastSlots (date : DateArg) (slots : List Int) (now : Int) : List Int :=
  if date = todayOf now then slots.filter (fun t => !isSlotInPast date t now)
  else slots

/-- `hasAvailabilityOnDate(provider, date, existingBookings)`
(src/lib/availability.js:338-342): the past-filtered available slot list
is non-empty. -/
def hasAvailabilityOnDate (p : Provider) (date : DateArg)
    (bookings : List Booking) (now : Int) : Bool :=
  decide (0 < (filterPastSlots date (getAvailableTimeSlots p date bookings 60) now).length)

/-- The day-scanning loop of `getNextAvailableSlot`
(src/lib/availability.js:234-248): `rem` days remaining, `i` the current
offset from today. -/
def nextAvailAux (p : Provider) (bookings : List Booking) (todayDay : Int) :
    Nat → Nat → Option (Int × Int)
  | 0, _ => none
  | rem + 1, i =>
    match getAvailableTimeSlots p (DateArg.valid (todayDay + i)) bookings 60 with
    | [] => nextAvailAux p bookings todayDay rem (i + 1)
    | t :: _ => some (todayDay + i, t)

/-- `getNextAvailableSlot(provider, existingBookings, daysToCheck)`
(src/lib/availability.js:231-251): scan `daysToCheck` days forward from
today and return the first date whose `getAvailableTimeSlots` list is
non-empty, with that list's first element (the source also returns a
display-only day name). -/
def getNextAvailableSlot (p : Provider) (bookings : List Booking)
    (daysToCheck : Nat) (now : Int) : Option (Int × Int) :=
  nextAvailAux p bookings (Int.fdiv now 1440) daysToCheck 0

/-- The Conflict Filter as the source applies it slot-by-slot
(src/lib/availability.js:87-89): keep the candidate slots that pass
`isProviderAvailable` against the booking set. -/
def filterAvailableSlots (p : Provider) (date : DateArg)
    (bookings : List Booking) (slots : List Int) : List Int :=
  slots.filter (fun t => isProviderAvailable p date t bookings)

/-- The slot-generation helper of src/lib/firestore.js:282-294: step from
`startTime` by `intervalMinutes`, emitting every step strictly before
`endTime` (`while (current < end)`), totalized by fuel exactly as
`slotStartsAux`. -/
def fsSlotsAux (endT d : Int) : Nat → Int → List Int
  | 0, _ => []
  | fuel + 1, t =>
    if t < endT then t :: fsSlotsAux endT d fuel (t + d) else []

/-- `generateTimeSlots(startTime, endTime, intervalMinutes)` of
src/lib/firestore.js:282-294, on minute values. -/
def fsGenerateTimeSlots (startT endT d : Int) : List Int :=
  fsSlotsAux endT d ((endT - startT).toNat + 1) startT

/-- The booking-creation request data the conflict-relevant fields of
`handleBookingSubmit` / `createBooking` carry. -/
structure BookingReq where
  providerId : String
  scheduledDate : DateArg
  scheduledTime : Int
deriving DecidableEq, Repr

/-- The store state and result of a booking-creation call. -/
structure CreateResult where
  store : List Booking
  success : Bool
deriving DecidableEq, Repr

/-- `createBooking(bookingData)` (src/lib/firestore.js:93-106), and
equally the `addDoc(collection(db, 'bookings'), booking)` call of
`handleBookingSubmit` (src/app/providers/[id]/page.js:124-138): an
unconditional atomic append of a new record with `status: 'pending'`,
returning success. No existing booking is read and no conflict check is
performed before the write. -/
def createBooking (req : BookingReq) (store : List Booking) : CreateResult :=
  ⟨store ++ [⟨req.providerId, req.scheduledDate, req.scheduledTime, BStatus.pending⟩],
    true⟩

/-- The active (`pending`/`confirmed`) records in a store at a given
`(providerId, date, startMinute)` key. -/
def activeAtKey (providerId : String) (date : DateArg) (time : Int)
    (store : List Booking) : List Booking :=
  store.filter
    (fun b => b.providerId = providerId && b.scheduledDate = date &&
      b.scheduledTime = time && isActiveStatus b.status)

/-- Fixture: a provider open every day 09:00-17:00. -/
def openProvider : Provider :=
  ⟨some (fun _ => some ⟨true, 540, 1020⟩)⟩

/-- Fixture: a provider whose every day rule is marked not available. -/
def closedProvider : Provider :=
  ⟨some (fun _ => some ⟨false, 540, 1020⟩)⟩

/-- Fixture: a provider with no availability data at all. -/
def noDataProvider : Provider :=
  ⟨none⟩

-- Fuel sufficiency: for a positive duration the loop runs out of guard
-- before it runs out of fuel, so any fuel above the window length gives
-- the same list.
theorem slotStartsAux_fuel_irrel (endT d : Int) (hd : 0 < d) :
    ∀ fuel₁ fuel₂ t, (endT - t).toNat < fuel₁ → (endT - t).toNat < fuel₂ →
      slotStartsAux endT d fuel₁ t = slotStartsAux endT d fuel₂ t := by
  intro fuel₁
  induction fuel₁ with
  | zero => intro fuel₂ t h₁ _; omega
  | succ n ih =>
    intro fuel₂ t h₁ h₂
    cases fuel₂ with
    | zero => omega
    | succ m =>
      simp only [slotStartsAux]
      by_cases hg : t + d ≤ endT
      · simp only [if_pos hg]
        have : (endT - (t + d)).toNat < n := by omega
        have : (endT - (t + d)).toNat < m := by omega
        rw [ih m (t + d) (by omega) (by omega)]
      · simp only [if_neg hg]

/-- Membership in the generated slot list, for positive duration: exactly
the arithmetic progression `t, t + d, t + 2d, ...` cut off at
`x + d ≤ endT`. -/
theorem mem_slotStartsAux (endT d : Int) (hd : 0 < d) :
    ∀ fuel t x, (endT - t).toNat < fuel →
      (x ∈ slotStartsAux endT d fuel t ↔
        ∃ k : Nat, x = t + k * d ∧ x + d ≤ endT) := by
  intro fuel
  induction fuel with
  | zero => intro t x h; omega
  | succ n ih =>
    intro t x h
    simp only [slotStartsAux]
    by_cases hg : t + d ≤ endT
    · simp only [if_pos hg, List.mem_cons]
      rw [ih (t + d) x (by omega)]
      constructor
      · rintro (rfl | ⟨k, rfl, hk⟩)
        · exact ⟨0, by push_cast; ring_nf, by omega⟩
        · exact ⟨k + 1, by push_cast; ring, hk⟩
      · rintro ⟨k, rfl, hk⟩
        cases k with
        | zero => left; push_cast; ring_nf
        | succ k =>
          right
          refine ⟨k, by push_cast; ring, hk⟩
    · simp only [if_neg hg, List.not_mem_nil, false_iff]
      rintro ⟨k, rfl, hk⟩
      have : (0 : Int) ≤ k * d := by positivity
      omega

/-- Every element of the generated list is at least the starting point. -/
theorem slotStartsAux_lower (endT d : Int) (hd : 0 < d) :
    ∀ fuel t x, x ∈ slotStartsAux endT d fuel t → t ≤ x := by
  intro fuel
  induction fuel with
  | zero => intro t x h; simp [slotStartsAux] at h
  | succ n ih =>
    intro t x h
    simp only [slotStartsAux] at h
    by_cases hg : t + d ≤ endT
    · rw [if_pos hg] at h
      rcases List.mem_cons.mp h with rfl | h
      · exact le_refl x
      · have := ih (t + d) x h
        omega
    · rw [if_neg hg] at h
      simp at h

/-- The generated slot list is strictly ascending. -/
theorem slotStartsAux_sorted (endT d : Int) (hd : 0 < d) :
    ∀ fuel t, List.Pairwise (fun a b => a < b) (slotStartsAux endT d fuel t) := by
  intro fuel
  induction fuel with
  | zero => intro t; simp [slotStartsAux]
  | succ n ih =>
    intro t
    simp only [slotStartsAux]
    by_cases hg : t + d ≤ endT
    · rw [if_pos hg]
      refine List.pairwise_cons.mpr ⟨?_, ih (t + d)⟩
      intro x hx
      have := slotStartsAux_lower endT d hd n (t + d) x hx
      omega
    · rw [if_neg hg]; simp

/-- Length bound for the generated slot list: at most the window length. -/
theorem slotStartsAux_length (endT d : Int) (hd : 0 < d) :
    ∀ fuel t, (slotStartsAux endT d fuel t).length ≤ (endT - t).toNat := by
  intro fuel
  induction fuel with
  | zero => intro t; simp [slotStartsAux]
  | succ n ih =>
    intro t
    simp only [slotStartsAux]
    by_cases hg : t + d ≤ endT
    · rw [if_pos hg]
      have h := ih (t + d)
      simp only [List.length_cons]
      omega
    · rw [if_neg hg]; simp

/-- Membership in the firestore helper's slot list, for positive duration:
the arithmetic progression cut off at `x < endT` (not at
`x + duration ≤ endT`). -/
theorem mem_fsSlotsAux (endT d : Int) (hd : 0 < d) :
    ∀ fuel t x, (endT - t).toNat < fuel →
      (x ∈ fsSlotsAux endT d fuel t ↔
        ∃ k : Nat, x = t + k * d ∧ x < endT) := by
  intro fuel
  induction fuel with
  | zero => intro t x h; omega
  | succ n ih =>
    intro t x h
    simp only [fsSlotsAux]
    by_cases hg : t < endT
    · simp only [if_pos hg, List.mem_cons]
      rw [ih (t + d) x (by omega)]
      constructor
      · rintro (rfl | ⟨k, rfl, hk⟩)
        · exact ⟨0, by push_cast; ring_nf, hg⟩
        · exact ⟨k + 1, by push_cast; ring, hk⟩
      · rintro ⟨k, rfl, hk⟩
        cases k with
        | zero => left; push_cast; ring_nf
        | succ k =>
          right
          refine ⟨k, by push_cast; ring, hk⟩
    · simp only [if_neg hg, List.not_mem_nil, false_iff]
      rintro ⟨k, rfl, hk⟩
      have : (0 : Int) ≤ k * d := by positivity
      omega

/-- When the duration divides the remaining window, the two loop guards
`t < endT` and `t + d ≤ endT` agree, so the two generators emit the same
list. -/
theorem fsSlotsAux_eq_slotStartsAux (endT d : Int) (hd : 0 < d) :
    ∀ fuel t, d ∣ (endT - t) →
      fsSlotsAux endT d fuel t = slotStartsAux endT d fuel t := by
  intro fuel
  induction fuel with
  | zero => intro t _; rfl
  | succ n ih =>
    intro t hdvd
    obtain ⟨m, hm⟩ := hdvd
    have hguard : t < endT ↔ t + d ≤ endT := by
      constructor
      · intro h
        have hm0 : 0 < m := by nlinarith
        have hdm : d ≤ d * m := le_mul_of_one_le_right (le_of_lt hd) hm0
        omega
      · intro h; omega
    simp only [fsSlotsAux, slotStartsAux]
    by_cases hg : t + d ≤ endT
    · rw [if_pos (hguard.mpr hg), if_pos hg,
        ih (t + d) ⟨m - 1, by rw [mul_sub]; omega⟩]
    · rw [if_neg (fun hlt => hg (hguard.mp hlt)), if_neg hg]

/-- Duplicating a booking record does not change the per-slot availability
verdict: the conflict check is an existence check. -/
theorem isProviderAvailable_dup (p : Provider) (date : DateArg) (t : Int)
    (b : Booking) (bs : List Booking) :
    isProviderAvailable p date t (b :: b :: bs) =
      isProviderAvailable p date t (b :: bs) := by
  obtain ⟨pav⟩ := p
  cases pav with
  | none => rfl
  | some avail =>
    cases date with
    | empty => rfl
    | invalid tag => rfl
    | valid day =>
      simp only [isProviderAvailable]
      cases avail (dayOfWeek day) with
      | none => rfl
      | some da =>
        simp only [List.any_cons, ← Bool.or_assoc, Bool.or_self]

/-- The day scan returns `none` exactly when every scanned day has an
empty `getAvailableTimeSlots` list. -/
theorem nextAvailAux_none_iff (p : Provider) (b : List Booking) (td : Int) :
    ∀ rem i, nextAvailAux p b td rem i = none ↔
      ∀ j : Nat, i ≤ j → j < i + rem →
        getAvailableTimeSlots p (DateArg.valid (td + j)) b 60 = [] := by
  intro rem
  induction rem with
  | zero =>
    intro i
    simp only [nextAvailAux, true_iff]
    intro j h1 h2
    omega
  | succ n ih =>
    intro i
    simp only [nextAvailAux]
    cases hslots : getAvailableTimeSlots p (DateArg.valid (td + i)) b 60 with
    | nil =>
      rw [ih (i + 1)]
      constructor
      · intro h j h1 h2
        rcases eq_or_lt_of_le h1 with rfl | hlt
        · exact hslots
        · exact h j hlt (by omega)
      · intro h j h1 h2
        exact h j (by omega) (by omega)
    | cons t rest =>
      simp only [reduceCtorEq, false_iff, not_forall]
      exact ⟨i, le_refl i, by omega, by rw [hslots]; simp⟩

/-- When the day scan returns a result, it is the first scanned day with a
non-empty `getAvailableTimeSlots` list, paired with the head of that
list. -/
theorem nextAvailAux_some_spec (p : Provider) (b : List Booking) (td : Int) :
    ∀ rem i d t, nextAvailAux p b td rem i = some (d, t) →
      ∃ j : Nat, i ≤ j ∧ j < i + rem ∧ d = td + j ∧
        (∀ k : Nat, i ≤ k → k < j →
          getAvailableTimeSlots p (DateArg.valid (td + k)) b 60 = []) ∧
        ∃ rest, getAvailableTimeSlots p (DateArg.valid (td + j)) b 60 = t :: rest := by
  intro rem
  induction rem with
  | zero => intro i d t h; simp [nextAvailAux] at h
  | succ n ih =>
    intro i d t h
    simp only [nextAvailAux] at h
    cases hslots : getAvailableTimeSlots p (DateArg.valid (td + i)) b 60 with
    | nil =>
      rw [hslots] at h
      obtain ⟨j, h1, h2, h3, h4, h5⟩ := ih (i + 1) d t h
      refine ⟨j, by omega, by omega, h3, ?_, h5⟩
      intro k hk1 hk2
      rcases eq_or_lt_of_le hk1 with rfl | hlt
      · exact hslots
      · exact h4 k hlt hk2
    | cons t0 rest =>
      rw [hslots] at h
      have h2 := Option.some.inj h
      have hd : td + (i : Int) = d := congrArg Prod.fst h2
      have ht : t0 = t := congrArg Prod.snd h2
      refine ⟨i, le_refl i, by omega, hd.symm, ?_, ⟨rest, by rw [hslots, ht]⟩⟩
      intro k hk1 hk2
      omega

/-- C1: the booking write path has no conflict guard. Evaluating the code
at the failing input: starting from an empty store, two `createBooking`
calls for the identical key `("p1", day 3, minute 540)` (their atomic
`addDoc` appends interleaved in either order give the same two appends)
BOTH return success, and afterwards TWO pending records exist at that key
— the claim's at-most-one-winner guarantee (one success, one
ConflictError, one pending record) does not hold on the code. -/
theorem createBooking_double_write_both_succeed :
    (createBooking ⟨"p1", DateArg.valid 3, 540⟩ []).success = true ∧
    (createBooking ⟨"p1", DateArg.valid 3, 540⟩
        (createBooking ⟨"p1", DateArg.valid 3, 540⟩ []).store).success = true ∧
    (activeAtKey "p1" (DateArg.valid 3) 540
        (createBooking ⟨"p1", DateArg.valid 3, 540⟩
          (createBooking ⟨"p1", DateArg.valid 3, 540⟩ []).store).store).length = 2 ∧
    (activeAtKey "p1" (DateArg.valid 3) 540
        (createBooking ⟨"p1", DateArg.valid 3, 540⟩
          (createBooking ⟨"p1", DateArg.valid 3, 540⟩ []).store).store).all
      (fun b => b.status = BStatus.pending) = true := by
  decide

/-- C2: booking creation does not re-validate before writing. Evaluating
the code at the failing input: with a pending record already in the store
at the key `("p1", day 3, minute 540)`, `createBooking` for that same key
still returns success and appends a second record (two active records at
the key, store changed), instead of returning ConflictError and leaving
the store unchanged; and a request whose time (minute 100) lies in no
available slot set of any provider is accepted just the same — the
requested date/time is taken from the caller unchecked. -/
theorem createBooking_no_revalidation :
    (createBooking ⟨"p1", DateArg.valid 3, 540⟩
        [⟨"p1", DateArg.valid 3, 540, BStatus.pending⟩]).success = true ∧
    (createBooking ⟨"p1", DateArg.valid 3, 540⟩
        [⟨"p1", DateArg.valid 3, 540, BStatus.pending⟩]).store ≠
      [⟨"p1", DateArg.valid 3, 540, BStatus.pending⟩] ∧
    (activeAtKey "p1" (DateArg.valid 3) 540
        (createBooking ⟨"p1", DateArg.valid 3, 540⟩
          [⟨"p1", DateArg.valid 3, 540, BStatus.pending⟩]).store).length = 2 ∧
    (createBooking ⟨"p1", DateArg.valid 3, 100⟩
        [⟨"p1", DateArg.valid 3, 540, BStatus.pending⟩]).success = true ∧
    isProviderAvailable openProvider (DateArg.valid 3) 100 [] = false := by
  decide

/-- C3: boundary-exclusive slot stepping. For every positive duration the
generated sequence is exactly the arithmetic progression from `startT`
stepped by `d` and restricted to starts `s` with `s + d ≤ endT`, in
strictly ascending order; for a day whose rule is missing or marked not
available the available-slot list is empty; and for the working window
540-1020 with duration 60 the result is exactly the eight slots
540..960, never 1020. -/
theorem generateSlots_boundary_exclusive (startT endT d : Int) (hd : 0 < d)
    (p : Provider) (date : DateArg) (bookings : List Booking) (dur : Int)
    (hclosed : dayRuleForDate p date = none ∨
      ∃ da, dayRuleForDate p date = some da ∧ da.available = false) :
    (∀ x, x ∈ generateTimeSlots startT endT d ↔
      ∃ k : Nat, x = startT + k * d ∧ x + d ≤ endT) ∧
    List.Pairwise (fun a b => a < b) (generateTimeSlots startT endT d) ∧
    getAvailableTimeSlots p date bookings dur = [] ∧
    generateTimeSlots 540 1020 60 = [540, 600, 660, 720, 780, 840, 900, 960] := by
  refine ⟨?_, ?_, ?_, by decide⟩
  · intro x
    exact mem_slotStartsAux endT d hd _ startT x (by omega)
  · exact slotStartsAux_sorted endT d hd _ startT
  · obtain ⟨pav⟩ := p
    cases pav with
    | none => rfl
    | some avail =>
      cases date with
      | empty => rfl
      | invalid tag => rfl
      | valid day =>
        simp only [dayRuleForDate] at hclosed
        simp only [getAvailableTimeSlots]
        rcases hclosed with hnone | ⟨da, hsome, hfalse⟩
        · rw [hnone]
        · rw [hsome]
          dsimp only
          rw [hfalse]
          simp

/-- Witness for C3 at duration 60 and the closed fixture provider. -/
theorem generateSlots_boundary_exclusive_w :
    getAvailableTimeSlots closedProvider (DateArg.valid 0) [] 60 = [] ∧
    generateTimeSlots 540 1020 60 = [540, 600, 660, 720, 780, 840, 900, 960] := by
  have h := generateSlots_boundary_exclusive 540 1020 60 (by decide)
    closedProvider (DateArg.valid 0) [] 60
    (Or.inr ⟨⟨false, 540, 1020⟩, rfl, rfl⟩)
  exact ⟨h.2.2.1, h.2.2.2⟩

/-- C4: `getAvailabilityStatus` classification. With availability data
present and a valid date: a missing or not-available day rule gives
`closed` regardless of the booking set; for an open day, zero remaining
available slots give `fully-booked`, and otherwise the percentage
`availableSlots.length / totalPossibleSlots * 100` selects `limited`
(< 25), `moderate` (< 50) or `available` (otherwise), with the
denominator the total possible slot count of the working window. -/
theorem statusForDate_classification (p : Provider) (day : Int)
    (bookings : List Booking) (avail : Fin 7 → Option DayRule) (da : DayRule)
    (hav : p.availability = some avail) :
    ((avail (dayOfWeek day) = none ∨
        (avail (dayOfWeek day) = some da ∧ da.available = false)) →
      getAvailabilityStatus p (DateArg.valid day) bookings =
        ⟨false, StatusTag.closed⟩) ∧
    (avail (dayOfWeek day) = some da → da.available = true →
      getAvailabilityStatus p (DateArg.valid day) bookings =
        (if (getAvailableTimeSlots p (DateArg.valid day) bookings 60).length = 0 then
          ⟨false, StatusTag.fullyBooked⟩
        else if ((getAvailableTimeSlots p (DateArg.valid day) bookings 60).length : ℚ) /
            (getTotalPossibleSlots da 60 : ℚ) * 100 < 25 then
          ⟨true, StatusTag.limited⟩
        else if ((getAvailableTimeSlots p (DateArg.valid day) bookings 60).length : ℚ) /
            (getTotalPossibleSlots da 60 : ℚ) * 100 < 50 then
          ⟨true, StatusTag.moderate⟩
        else ⟨true, StatusTag.available⟩)) := by
  obtain ⟨pav⟩ := p
  simp only at hav
  subst hav
  constructor
  · rintro (hnone | ⟨hsome, hfalse⟩)
    · simp only [getAvailabilityStatus]
      rw [hnone]
    · simp only [getAvailabilityStatus]
      rw [hsome]
      dsimp only
      rw [hfalse]
      simp
  · intro hsome htrue
    simp only [getAvailabilityStatus]
    rw [hsome]
    dsimp only
    rw [htrue]
    rfl

/-- Witness for C4: the all-open fixture provider on day 0 with no
bookings has 8 of 8 slots free (100%), hence status `available`. -/
theorem statusForDate_classification_w :
    getAvailabilityStatus openProvider (DateArg.valid 0) [] =
      ⟨true, StatusTag.available⟩ := by
  have h := (statusForDate_classification openProvider 0 []
      (fun _ => some ⟨true, 540, 1020⟩) ⟨true, 540, 1020⟩ rfl).2 rfl rfl
  have hlen : (getAvailableTimeSlots openProvider (DateArg.valid 0) [] 60).length = 8 := by
    decide
  have htot : getTotalPossibleSlots ⟨true, 540, 1020⟩ 60 = 8 := by decide
  rw [h, hlen, htot]
  norm_num

/-- C5 counterexample: with `now` = minute 870 of day 0 (today 14:30),
the slot at minute 870 has its instant equal to `now` (`870 ≤ 870`), so
the claim says it is removed — but `filterPastSlots` keeps it, because
`isSlotInPast` uses a strict `<` comparison. -/
theorem filterPastSlots_boundary_cex :
    filterPastSlots (DateArg.valid 0) [870] 870 = [870] ∧
    DateArg.valid 0 = todayOf 870 ∧ (0 : Int) * 1440 + 870 ≤ 870 := by
  decide

/-- C5 amended: when the queried date is today, exactly the slots whose
instant is STRICTLY earlier than `now` are removed (a slot at exactly
`now` is retained); any other date is never filtered for pastness. With
`now` = today 14:30 (minute 870), slot 540 is excluded and slot 900
retained. -/
theorem filterPastSlots_strict (day now : Int) (slots : List Int)
    (date : DateArg) :
    (DateArg.valid day = todayOf now →
      ∀ t, t ∈ filterPastSlots (DateArg.valid day) slots now ↔
        t ∈ slots ∧ now ≤ day * 1440 + t) ∧
    (date ≠ todayOf now → filterPastSlots date slots now = slots) ∧
    filterPastSlots (DateArg.valid 0) [540, 900] 870 = [900] := by
  refine ⟨?_, ?_, by decide⟩
  · intro h t
    rw [filterPastSlots, if_pos h]
    simp [isSlotInPast, not_lt]
  · intro h
    rw [filterPastSlots, if_neg h]

/-- Witness for C5 at today = day 0, now = minute 870, slot 900. -/
theorem filterPastSlots_strict_w :
    900 ∈ filterPastSlots (DateArg.valid 0) [540, 900] 870 ↔
      900 ∈ ([540, 900] : List Int) ∧ (870 : Int) ≤ 0 * 1440 + 900 :=
  (filterPastSlots_strict 0 870 [540, 900] DateArg.empty).1 (by decide) 900

/-- C6 counterexample: with the all-open fixture provider, no bookings,
and `now` = minute 1380 of day 0 (today 23:00), `getNextAvailableSlot`
returns day 0 with slot 540 even though day 0's slot list after past-slot
filtering is empty — the scan applies no past-slot filtering, so the
claim's "first date whose filtered (booking AND past) slot list is
non-empty" is violated: that date would be day 1. -/
theorem nextAvailable_no_past_filter_cex :
    getNextAvailableSlot openProvider [] 14 1380 = some (0, 540) ∧
    filterPastSlots (DateArg.valid 0)
      (getAvailableTimeSlots openProvider (DateArg.valid 0) [] 60) 1380 = [] ∧
    todayOf 1380 = DateArg.valid 0 := by
  decide

/-- C6 amended: `getNextAvailableSlot` scans days today, today+1, ...,
today+horizonDays-1 in order and returns the first date whose
booking-conflict-filtered slot list (WITHOUT past-slot filtering) is
non-empty, together with that list's first (earliest) slot; it returns
none exactly when every day in the horizon has an empty such list. -/
theorem nextAvailable_scan_spec (p : Provider) (b : List Booking)
    (daysToCheck : Nat) (now : Int) :
    (getNextAvailableSlot p b daysToCheck now = none ↔
      ∀ j : Nat, j < daysToCheck →
        getAvailableTimeSlots p (DateArg.valid (Int.fdiv now 1440 + j)) b 60 = []) ∧
    (∀ d t, getNextAvailableSlot p b daysToCheck now = some (d, t) →
      ∃ j : Nat, j < daysToCheck ∧ d = Int.fdiv now 1440 + j ∧
        (∀ k : Nat, k < j →
          getAvailableTimeSlots p (DateArg.valid (Int.fdiv now 1440 + k)) b 60 = []) ∧
        ∃ rest, getAvailableTimeSlots p (DateArg.valid (Int.fdiv now 1440 + j)) b 60 =
          t :: rest) := by
  constructor
  · rw [getNextAvailableSlot, nextAvailAux_none_iff]
    constructor
    · intro h j hj
      exact h j (by omega) (by omega)
    · intro h j h1 h2
      exact h j (by omega)
  · intro d t h
    obtain ⟨j, _, h2, h3, h4, h5⟩ :=
      nextAvailAux_some_spec p b (Int.fdiv now 1440) daysToCheck 0 d t h
    exact ⟨j, by omega, h3, fun k hk => h4 k (by omega) (by omega), h5⟩

/-- Witness for C6: the scan result at the fixture provider is day 0 of
the horizon with head slot 540. -/
theorem nextAvailable_scan_spec_w :
    ∃ j : Nat, j < 14 ∧ (0 : Int) = Int.fdiv 1380 1440 + j ∧
      (∀ k : Nat, k < j →
        getAvailableTimeSlots openProvider
          (DateArg.valid (Int.fdiv 1380 1440 + k)) [] 60 = []) ∧
      ∃ rest, getAvailableTimeSlots openProvider
        (DateArg.valid (Int.fdiv 1380 1440 + j)) [] 60 = 540 :: rest :=
  (nextAvailable_scan_spec openProvider [] 14 1380).2 0 540 (by decide)

/-- C7: the conflict filter is idempotent — filtering an already-filtered
slot sequence with the same booking set removes nothing further — and
duplicate pending/confirmed bookings at the same date and startMinute
remove a slot exactly as a single conflicting booking would (both for the
raw filter and for the full `getAvailableTimeSlots` query). -/
theorem conflictFilter_idempotent (p : Provider) (date : DateArg)
    (bookings : List Booking) (slots : List Int) (b : Booking)
    (bs : List Booking) :
    filterAvailableSlots p date bookings
        (filterAvailableSlots p date bookings slots) =
      filterAvailableSlots p date bookings slots ∧
    filterAvailableSlots p date (b :: b :: bs) slots =
      filterAvailableSlots p date (b :: bs) slots ∧
    getAvailableTimeSlots p date (b :: b :: bs) 60 =
      getAvailableTimeSlots p date (b :: bs) 60 := by
  refine ⟨?_, ?_, ?_⟩
  · simp [filterAvailableSlots, List.filter_filter]
  · simp only [filterAvailableSlots, isProviderAvailable_dup]
  · obtain ⟨pav⟩ := p
    cases pav with
    | none => rfl
    | some avail =>
      cases date with
      | empty => rfl
      | invalid tag => rfl
      | valid day =>
        simp only [getAvailableTimeSlots, isProviderAvailable_dup]

/-- C8: availability absence is data, not failure. Whenever the day rule
cannot be resolved (no availability data, falsy or unparseable date, no
rule for the weekday) or the day is marked not available, the slot query
returns the empty list and the status query reports `closed` or
`unavailable` with `available = false`; both are total functions — no
error is raised. -/
theorem availability_absence_is_data (p : Provider) (date : DateArg)
    (bookings : List Booking) (dur : Int)
    (h : dayRuleForDate p date = none ∨
      ∃ da, dayRuleForDate p date = some da ∧ da.available = false) :
    getAvailableTimeSlots p date bookings dur = [] ∧
    ((getAvailabilityStatus p date bookings).status = StatusTag.closed ∨
      (getAvailabilityStatus p date bookings).status = StatusTag.unavailable) ∧
    (getAvailabilityStatus p date bookings).available = false := by
  obtain ⟨pav⟩ := p
  cases pav with
  | none => exact ⟨rfl, Or.inr rfl, rfl⟩
  | some avail =>
    cases date with
    | empty => exact ⟨rfl, Or.inr rfl, rfl⟩
    | invalid tag => exact ⟨rfl, Or.inl rfl, rfl⟩
    | valid day =>
      simp only [dayRuleForDate] at h
      refine ⟨?_, ?_, ?_⟩
      · simp only [getAvailableTimeSlots]
        rcases h with hnone | ⟨da, hsome, hfalse⟩
        · rw [hnone]
        · rw [hsome]
          dsimp only
          rw [hfalse]
          simp
      · simp only [getAvailabilityStatus]
        rcases h with hnone | ⟨da, hsome, hfalse⟩
        · rw [hnone]
          exact Or.inl rfl
        · rw [hsome]
          dsimp only
          rw [hfalse]
          exact Or.inl rfl
      · simp only [getAvailabilityStatus]
        rcases h with hnone | ⟨da, hsome, hfalse⟩
        · rw [hnone]
        · rw [hsome]
          dsimp only
          rw [hfalse]
          rfl

/-- Witness for C8 at the no-data fixture provider. -/
theorem availability_absence_is_data_w :
    getAvailableTimeSlots noDataProvider (DateArg.valid 0) [] 60 = [] ∧
    ((getAvailabilityStatus noDataProvider (DateArg.valid 0) []).status =
        StatusTag.closed ∨
      (getAvailabilityStatus noDataProvider (DateArg.valid 0) []).status =
        StatusTag.unavailable) ∧
    (getAvailabilityStatus noDataProvider (DateArg.valid 0) []).available =
      false :=
  availability_absence_is_data noDataProvider (DateArg.valid 0) [] 60
    (Or.inl rfl)

/-- C9 counterexample: the code performs no duration validation (there is
no ValidationError anywhere in the source); with duration 0 the
generation loop of `getAvailableTimeSlots`/`generateTimeSlots` is entered
— its guard holds at the initial state (start 540, end 1020) — and one
loop step leaves the loop variable unchanged, so the guard holds forever
and the loop never terminates, contradicting "terminates for every slot
duration argument" and "duration ≤ 0 is rejected before the loop". -/
theorem slotLoop_nonterm_cex :
    slotLoopGuard 1020 0 (loopIter 0 540 0) ∧
    loopIter 0 540 1 = loopIter 0 540 0 := by
  decide

/-- C9 amended: for every POSITIVE duration the slot-generation loop
terminates with a finite sequence of at most `endT - startT` slots; the
code does not validate the duration, and for any duration ≤ 0 whose
initial guard check succeeds the guard holds at every loop iterate, i.e.
the loop never exits. -/
theorem slotGeneration_total_pos_duration (startT endT d : Int) (hd : 0 < d)
    (e s dd : Int) (hdd : dd ≤ 0) (henter : slotLoopGuard e dd s) :
    (generateTimeSlots startT endT d).length ≤ (endT - startT).toNat ∧
    ∀ n : Nat, slotLoopGuard e dd (loopIter dd s n) := by
  constructor
  · exact slotStartsAux_length endT d hd _ startT
  · intro n
    have hn : (n : Int) * dd ≤ 0 :=
      mul_nonpos_of_nonneg_of_nonpos (Int.natCast_nonneg n) hdd
    simp only [slotLoopGuard, loopIter] at henter ⊢
    omega

/-- Witness for C9 at duration 60 (length bound) and duration 0 (guard
invariance after 7 loop steps). -/
theorem slotGeneration_total_pos_duration_w :
    (generateTimeSlots 540 1020 60).length ≤ ((1020 : Int) - 540).toNat ∧
    slotLoopGuard 1020 0 (loopIter 0 540 7) :=
  ⟨(slotGeneration_total_pos_duration 540 1020 60 (by decide) 1020 540 0
      (by decide) (by decide)).1,
    (slotGeneration_total_pos_duration 540 1020 60 (by decide) 1020 540 0
      (by decide) (by decide)).2 7⟩

/-- C10 counterexample: at startTime 540, endTime 990, duration 60 the
two generators disagree — the firestore helper emits 960, whose window
[960, 1020) extends past endTime 990, while the availability generator
stops at 900. -/
theorem fsGenerator_boundary_cex :
    fsGenerateTimeSlots 540 990 60 ≠ generateTimeSlots 540 990 60 ∧
    960 ∈ fsGenerateTimeSlots 540 990 60 ∧
    ¬((960 : Int) + 60 ≤ 990) := by
  decide

/-- C10 amended: the firestore helper emits every progression start
strictly before endTime (boundary on the start, not on start+duration),
so it agrees with the availability generator exactly on windows whose
length is a multiple of the duration; on other windows it additionally
emits a final slot extending past endTime. -/
theorem fsGenerator_agreement (startT endT d : Int) (hd : 0 < d)
    (hdvd : d ∣ (endT - startT)) :
    fsGenerateTimeSlots startT endT d = generateTimeSlots startT endT d ∧
    ∀ s e x, x ∈ fsGenerateTimeSlots s e d ↔
      ∃ k : Nat, x = s + k * d ∧ x < e := by
  constructor
  · exact fsSlotsAux_eq_slotStartsAux endT d hd _ startT hdvd
  · intro s e x
    exact mem_fsSlotsAux e d hd _ s x (by omega)

/-- Witness for C10 on the 540-1020 window, whose length 480 is a
multiple of 60. -/
theorem fsGenerator_agreement_w :
    fsGenerateTimeSlots 540 1020 60 = generateTimeSlots 540 1020 60 :=
  (fsGenerator_agreement 540 1020 60 (by decide) (by decide)).1
